import Mathlib

/-!
# Verification of the compiler-game incremental engine

Shallow embedding of the game's core simulation code
(`src/core/gameState.js`, `src/core/game.js`, `src/modules/codeGenerator.js`,
`src/modules/codeOptimizer.js`, `src/modules/performanceAnalyzer.js`,
`src/storage/storageManager.js`, `src/modules/tokenizer.js`) together with the
static configuration of `src/utils/constants.js`.

Modelling conventions:
* decimal.js `Decimal` values are modelled as exact rationals `ℚ`.  The game
  configures decimal.js with 100 significant digits; at the scales exercised
  here all claimed identities are exact, and `x.pow(0.5).floor()` is modelled
  as the floor of the exact square root (see `decimalSqrtFloor`).
* JS `number` fields that hold small integers (upgrade levels, counters,
  prestige level) are modelled as `ℕ`; the few JS float constants
  (`growth`, `0.1`, `0.05`, ...) are modelled by the exact rationals that the
  source text denotes.
* Wall-clock fields (`startTime`, `lastSaveTime`, record timestamps) are
  outside the model; history records keep their value-bearing fields.
* Mutation of `this` is modelled by explicit state passing: a JS method that
  mutates and returns `x` becomes a Lean function returning `x × State`.
-/

set_option maxHeartbeats 1000000

namespace CompilerGame

/-- The five resource kinds of the ledger (`gameState.js` `reset()`). -/
inductive Resource
  | tokens | astNodes | generatedCode | optimizedCode | compilerPoints
deriving DecidableEq, Repr

/-- The resource ledger: one `Decimal` (here `ℚ`) per resource. -/
structure Resources where
  tokens : ℚ
  astNodes : ℚ
  generatedCode : ℚ
  optimizedCode : ℚ
  compilerPoints : ℚ
deriving DecidableEq, Repr

def Resources.get (r : Resources) : Resource → ℚ
  | .tokens => r.tokens
  | .astNodes => r.astNodes
  | .generatedCode => r.generatedCode
  | .optimizedCode => r.optimizedCode
  | .compilerPoints => r.compilerPoints

def Resources.set (r : Resources) : Resource → ℚ → Resources
  | .tokens, v => { r with tokens := v }
  | .astNodes, v => { r with astNodes := v }
  | .generatedCode, v => { r with generatedCode := v }
  | .optimizedCode, v => { r with optimizedCode := v }
  | .compilerPoints, v => { r with compilerPoints := v }

/-- Keys of `UPGRADE_DATA` and `STAGE3_UPGRADES` (`constants.js`). -/
inductive UpgradeId
  | tokenSpeed        -- 'token-speed'
  | autoTokenizer1    -- 'auto-tokenizer-1'
  | autoScanner2      -- 'auto-scanner-2'
  | parallelLexer3    -- 'parallel-lexer-3'
  | autoParser1       -- 'auto-parser-1'
  | basicCodeGen      -- 'basicCodeGen'   (STAGE3_UPGRADES)
  | llvmCodeGen       -- 'llvmCodeGen'    (STAGE3_UPGRADES)
  | jitCompiler       -- 'jitCompiler'    (STAGE3_UPGRADES)
deriving DecidableEq, Repr

/-- Upgrade levels, one integer level per catalog key (`this.upgrades`). -/
structure Upgrades where
  tokenSpeed : ℕ
  autoTokenizer1 : ℕ
  autoScanner2 : ℕ
  parallelLexer3 : ℕ
  autoParser1 : ℕ
  basicCodeGen : ℕ
  llvmCodeGen : ℕ
  jitCompiler : ℕ
deriving DecidableEq, Repr

def Upgrades.get (u : Upgrades) : UpgradeId → ℕ
  | .tokenSpeed => u.tokenSpeed
  | .autoTokenizer1 => u.autoTokenizer1
  | .autoScanner2 => u.autoScanner2
  | .parallelLexer3 => u.parallelLexer3
  | .autoParser1 => u.autoParser1
  | .basicCodeGen => u.basicCodeGen
  | .llvmCodeGen => u.llvmCodeGen
  | .jitCompiler => u.jitCompiler

def Upgrades.set (u : Upgrades) : UpgradeId → ℕ → Upgrades
  | .tokenSpeed, v => { u with tokenSpeed := v }
  | .autoTokenizer1, v => { u with autoTokenizer1 := v }
  | .autoScanner2, v => { u with autoScanner2 := v }
  | .parallelLexer3, v => { u with parallelLexer3 := v }
  | .autoParser1, v => { u with autoParser1 := v }
  | .basicCodeGen, v => { u with basicCodeGen := v }
  | .llvmCodeGen, v => { u with llvmCodeGen := v }
  | .jitCompiler, v => { u with jitCompiler := v }

inductive UpgradeKind
  | manual | generator | converter
deriving DecidableEq, Repr

/-- One entry of `UPGRADE_DATA` / `STAGE3_UPGRADES` (name strings omitted). -/
structure UpgradeDef where
  baseCost : ℚ
  growth : ℚ
  baseOutput : ℚ
  kind : UpgradeKind
  resource : Option Resource
  costResource : Option Resource
  unlockThreshold : Option ℚ
deriving DecidableEq, Repr

/-- The static catalog (`constants.js`, `UPGRADE_DATA` and `STAGE3_UPGRADES`). -/
def upgradeData : UpgradeId → UpgradeDef
  | .tokenSpeed =>
      ⟨25, 5/4, 1/10, .manual, none, none, none⟩
  | .autoTokenizer1 =>
      ⟨50, 23/20, 1, .generator, some .tokens, none, none⟩
  | .autoScanner2 =>
      ⟨500, 59/50, 5, .generator, some .tokens, none, some 250⟩
  | .parallelLexer3 =>
      ⟨8000, 61/50, 25, .generator, some .tokens, none, some 4000⟩
  | .autoParser1 =>
      ⟨1000, 6/5, 1/2, .converter, some .astNodes, some .tokens, some 500⟩
  | .basicCodeGen =>
      ⟨100, 6/5, 1/10, .converter, some .generatedCode, some .astNodes, some 1000⟩
  | .llvmCodeGen =>
      ⟨1000, 5/4, 3/20, .converter, some .generatedCode, some .astNodes, some 5000⟩
  | .jitCompiler =>
      ⟨10000, 13/10, 1/5, .converter, some .generatedCode, some .astNodes, some 50000⟩

/-- Iteration order of UPGRADE_DATA object keys (used by the production and
consumption loops of `gameState.js` / `game.js`, which iterate only
UPGRADE_DATA, not STAGE3_UPGRADES). -/
def upgradeKeys : List UpgradeId :=
  [.tokenSpeed, .autoTokenizer1, .autoScanner2, .parallelLexer3, .autoParser1]

/-- `this.prestige` of `GameState`. -/
structure PrestigeState where
  level : ℕ
  totalResets : ℕ
deriving DecidableEq, Repr

/-- Mutable slots of one `PRESTIGE_UPGRADES` entry (`constants.js`). -/
structure PrestigeUpgrade where
  level : ℕ
  cost : ℚ
  unlocked : Bool
deriving DecidableEq, Repr

/-- The three `PRESTIGE_UPGRADES` entries (module-global mutable state in the
source, modelled as part of the game state). -/
structure PrestigeUpgrades where
  quantumTokenizer : PrestigeUpgrade
  parallelCompiler : PrestigeUpgrade
  aiOptimizer : PrestigeUpgrade
deriving DecidableEq, Repr

/-- Keys of `DEPLOYMENT_PLATFORMS`. -/
inductive Platform
  | development | serverCluster | edgeComputing | quantumProcessor
deriving DecidableEq, Repr

/-- One entry of `state.stage3.optimizations` (written only by the storage
manager's `load`). -/
structure TechSave where
  level : ℕ
  cost : ℚ
deriving DecidableEq, Repr

/-- `state.stage3.optimizations`: a string-keyed object that starts empty,
so each key is optionally present. -/
structure Stage3Opts where
  deadCodeElimination : Option TechSave
  loopOptimization : Option TechSave
  functionInlining : Option TechSave
  registerAllocation : Option TechSave
deriving DecidableEq, Repr

/-- `this.stage3` of `GameState`. -/
structure Stage3State where
  unlocked : Bool
  optimizations : Stage3Opts
  currentDeployment : Platform
  performanceScore : ℚ
deriving DecidableEq, Repr

/-- Code-generation templates (`codeGenerator.js` `this.templates`). -/
inductive Template
  | basic | llvm | jit
deriving DecidableEq, Repr

/-- Template efficiency factors (0.1 / 0.15 / 0.2). -/
def templateEfficiency : Template → ℚ
  | .basic => 1/10
  | .llvm => 3/20
  | .jit => 1/5

/-- `this.generationStats` of `CodeGenerator`. -/
structure GenStats where
  totalGenerated : ℚ
  sessionsCount : ℕ
  averageEfficiency : ℚ
deriving DecidableEq, Repr

/-- State of `CodeGenerator`. -/
structure CodeGenState where
  currentTemplate : Template
  optimizationLevel : ℕ
  generationStats : GenStats
deriving DecidableEq, Repr

/-- Keys of `OPTIMIZATION_TECHS`. -/
inductive Tech
  | deadCodeElimination | loopOptimization | functionInlining | registerAllocation
deriving DecidableEq, Repr

/-- Static data of one `OPTIMIZATION_TECHS` entry. -/
structure TechDef where
  maxLevel : ℕ
  baseCost : ℚ
  growth : ℚ
  efficiency : ℚ
deriving DecidableEq, Repr

def techData : Tech → TechDef
  | .deadCodeElimination => ⟨10, 50, 8/5, 1/10⟩
  | .loopOptimization => ⟨8, 200, 9/5, 3/20⟩
  | .functionInlining => ⟨5, 500, 2, 1/5⟩
  | .registerAllocation => ⟨12, 100, 3/2, 1/20⟩

/-- Mutable per-technique state of `CodeOptimizer` (`this.optimizations`). -/
structure TechState where
  level : ℕ
  cost : ℚ
  totalApplications : ℕ
  effectiveness : ℚ
deriving DecidableEq, Repr

structure OptTechs where
  deadCodeElimination : TechState
  loopOptimization : TechState
  functionInlining : TechState
  registerAllocation : TechState
deriving DecidableEq, Repr

def OptTechs.get (o : OptTechs) : Tech → TechState
  | .deadCodeElimination => o.deadCodeElimination
  | .loopOptimization => o.loopOptimization
  | .functionInlining => o.functionInlining
  | .registerAllocation => o.registerAllocation

/-- One record of `CodeOptimizer.optimizationHistory` (timestamp omitted). -/
structure OptHistEntry where
  input : ℚ
  output : ℚ
  improvement : ℚ
deriving DecidableEq, Repr

/-- State of `CodeOptimizer`. -/
structure OptimizerState where
  optimizations : OptTechs
  optimizationHistory : List OptHistEntry
  totalOptimizationScore : ℚ
deriving DecidableEq, Repr

/-- Per-platform statistics of `PerformanceAnalyzer.deploymentStats`. -/
structure PlatStats where
  totalDeployments : ℕ
  cumulativeScore : ℚ
  bestScore : ℚ
  averageScore : ℚ
deriving DecidableEq, Repr

structure DeployStats where
  development : PlatStats
  serverCluster : PlatStats
  edgeComputing : PlatStats
  quantumProcessor : PlatStats
deriving DecidableEq, Repr

def DeployStats.get (d : DeployStats) : Platform → PlatStats
  | .development => d.development
  | .serverCluster => d.serverCluster
  | .edgeComputing => d.edgeComputing
  | .quantumProcessor => d.quantumProcessor

/-- One record of `PerformanceAnalyzer.performanceHistory`
(timestamp and metrics snapshot omitted; the score and platform carry the
value content). -/
structure HistEntry where
  score : ℚ
  platform : Platform
deriving DecidableEq, Repr

/-- `this.detailedMetrics` of `PerformanceAnalyzer`. -/
structure Metrics where
  executionSpeed : ℚ
  memoryEfficiency : ℚ
  codeQuality : ℚ
  reliability : ℚ
  scalability : ℚ
deriving DecidableEq, Repr

/-- State of `PerformanceAnalyzer`. -/
structure AnalyzerState where
  currentPlatform : Platform
  performanceHistory : List HistEntry
  deploymentStats : DeployStats
  detailedMetrics : Metrics
deriving DecidableEq, Repr

/-- `this.stats` of `GameState`. -/
structure GameStats where
  totalTokensGenerated : ℚ
  totalNodesBuilt : ℚ
  totalCodeGenerated : ℚ
  totalPlayTime : ℚ
  clickCount : ℕ
  upgradesPurchased : ℕ
deriving DecidableEq, Repr

/-- The aggregate engine state: `GameState` together with the three stage-3
sub-engines it owns and the `PRESTIGE_UPGRADES` globals. -/
structure GameState where
  resources : Resources
  upgrades : Upgrades
  prestige : PrestigeState
  prestigeUpgrades : PrestigeUpgrades
  stage3 : Stage3State
  codeGenerator : CodeGenState
  codeOptimizer : OptimizerState
  performanceAnalyzer : AnalyzerState
  buyAmount : ℕ
  devMode : Bool
  stats : GameStats
deriving DecidableEq, Repr

/-! ## Fresh (constructor / reset) values -/

def initialResources : Resources := ⟨0, 0, 0, 0, 0⟩

def initialUpgrades : Upgrades := ⟨0, 0, 0, 0, 0, 0, 0, 0⟩

def initialStage3 : Stage3State := ⟨false, ⟨none, none, none, none⟩, .development, 0⟩

/-- `CodeGenerator` constructor / `resetStats()`. -/
def initialCodeGen : CodeGenState := ⟨.basic, 0, ⟨0, 0, 0⟩⟩

/-- Fresh per-technique state (`CodeOptimizer` constructor). -/
def initialTechState (t : Tech) : TechState := ⟨0, (techData t).baseCost, 0, 0⟩

def initialOptTechs : OptTechs :=
  ⟨initialTechState .deadCodeElimination, initialTechState .loopOptimization,
   initialTechState .functionInlining, initialTechState .registerAllocation⟩

def initialOptimizer : OptimizerState := ⟨initialOptTechs, [], 0⟩

def initialPlatStats : PlatStats := ⟨0, 0, 0, 0⟩

def initialDeployStats : DeployStats :=
  ⟨initialPlatStats, initialPlatStats, initialPlatStats, initialPlatStats⟩

def initialMetrics : Metrics := ⟨1, 1, 1, 1, 1⟩

def initialAnalyzer : AnalyzerState := ⟨.development, [], initialDeployStats, initialMetrics⟩

def initialPrestigeUpgrades : PrestigeUpgrades :=
  ⟨⟨0, 10, false⟩, ⟨0, 100, false⟩, ⟨0, 1000, false⟩⟩

def initialStats : GameStats := ⟨0, 0, 0, 0, 0, 0⟩

/-- `new GameState()`: `reset()` plus fresh sub-engines. -/
def initialState : GameState :=
  ⟨initialResources, initialUpgrades, ⟨0, 0⟩, initialPrestigeUpgrades, initialStage3,
   initialCodeGen, initialOptimizer, initialAnalyzer, 1, false, initialStats⟩

/-! ## Cost model and purchases (`gameState.js`) -/

/-- The summed bulk cost computed by the loops in `canBuyUpgrade` and
`buyUpgrade`: `Σ_{i<quantity} baseCost · growth^(level+i)`. -/
def bulkCost (d : UpgradeDef) (level quantity : ℕ) : ℚ :=
  ∑ i ∈ Finset.range quantity, d.baseCost * d.growth ^ (level + i)

/-- `GameState.canBuyUpgrade(upgradeKey, amount)`. -/
def canBuyUpgrade (s : GameState) (k : UpgradeId) (amount : ℕ) : Bool :=
  let d := upgradeData k
  let checkRes := d.costResource.getD Resource.tokens
  let afford : Bool := decide (bulkCost d (s.upgrades.get k) amount ≤ s.resources.get checkRes)
  match d.unlockThreshold with
  | some thr => if s.resources.get checkRes < thr then false else afford
  | none => afford

/-- `GameState.buyUpgrade(upgradeKey, amount)`: returns the JS boolean result
together with the post-call state. -/
def buyUpgrade (s : GameState) (k : UpgradeId) (amount : ℕ) : Bool × GameState :=
  if canBuyUpgrade s k amount = false then (false, s)
  else
    let d := upgradeData k
    let costRes := d.costResource.getD Resource.tokens
    let totalCost := bulkCost d (s.upgrades.get k) amount
    (true,
     { s with
        resources := s.resources.set costRes (s.resources.get costRes - totalCost)
        upgrades := s.upgrades.set k (s.upgrades.get k + amount)
        stats := { s.stats with upgradesPurchased := s.stats.upgradesPurchased + amount } })

/-! ## Prestige (`gameState.js`) -/

/-- `GameState.getPrestigeMultiplier(resource)` (the resource argument is
unused by the source formula). -/
def getPrestigeMultiplier (s : GameState) (_resource : Resource) : ℚ :=
  let m0 : ℚ := if 0 < s.prestige.level then 1 * 2 ^ s.prestige.level else 1
  let step : ℚ → PrestigeUpgrade → ℚ := fun m u =>
    if 0 < u.level ∧ u.unlocked then m * (3/2) ^ u.level else m
  step (step (step m0 s.prestigeUpgrades.quantumTokenizer)
      s.prestigeUpgrades.parallelCompiler) s.prestigeUpgrades.aiOptimizer

/-- The weighted resource total of `calculatePrestigeGain`. -/
def weightedTotal (s : GameState) : ℚ :=
  s.resources.tokens + s.resources.astNodes * 10 + s.resources.generatedCode * 100
    + s.resources.optimizedCode * 1000

/-- Model of decimal.js `x.pow(0.5).floor()` for nonnegative `x`: the floor of
the exact square root.  (decimal.js computes a correctly rounded 100-digit
square root; flooring it agrees with flooring the exact root at the scales
the game reaches.)  For rational `0 ≤ q`, `⌊√q⌋ = Nat.sqrt ⌊q⌋`, which keeps
the definition executable. -/
def decimalSqrtFloor (q : ℚ) : ℚ := (Nat.sqrt ⌊q⌋₊ : ℚ)

/-- `GameState.calculatePrestigeGain()`. -/
def calculatePrestigeGain (s : GameState) : ℚ :=
  if weightedTotal s < 1000 then 0 else decimalSqrtFloor (weightedTotal s / 1000)

/-- `CodeOptimizer.resetOptimizer(keepSomeProgress)`.  With retention, each
technique keeps `⌊level·0.1⌋` levels (exact for the catalog's max levels ≤ 12)
and its `totalApplications` counter. -/
def resetTechState (keep : Bool) (t : Tech) (ts : TechState) : TechState :=
  ⟨if keep then ts.level / 10 else 0, (techData t).baseCost,
   if keep then ts.totalApplications else 0, 0⟩

def resetOptimizer (keep : Bool) (o : OptimizerState) : OptimizerState :=
  { optimizations :=
      ⟨resetTechState keep .deadCodeElimination o.optimizations.deadCodeElimination,
       resetTechState keep .loopOptimization o.optimizations.loopOptimization,
       resetTechState keep .functionInlining o.optimizations.functionInlining,
       resetTechState keep .registerAllocation o.optimizations.registerAllocation⟩
    optimizationHistory := if keep then o.optimizationHistory else []
    totalOptimizationScore := if keep then o.totalOptimizationScore else 0 }

/-- `PerformanceAnalyzer.resetAnalyzer(keepHistory)`. -/
def resetAnalyzer (keepHistory : Bool) (a : AnalyzerState) : AnalyzerState :=
  { currentPlatform := .development
    performanceHistory := if keepHistory then a.performanceHistory else []
    deploymentStats := if keepHistory then a.deploymentStats else initialDeployStats
    detailedMetrics := initialMetrics }

/-- `GameState.doPrestige()`: returns the JS boolean result together with the
post-call state.  On success it calls `codeGenerator.resetStats()`,
`codeOptimizer.resetOptimizer(true)` and `performanceAnalyzer.resetAnalyzer(false)`. -/
def doPrestige (s : GameState) : Bool × GameState :=
  let gain := calculatePrestigeGain s
  if gain ≤ 0 then (false, s)
  else
    (true,
     { s with
        resources :=
          { s.resources with
              compilerPoints := s.resources.compilerPoints + gain
              tokens := 0, astNodes := 0, generatedCode := 0, optimizedCode := 0 }
        prestige := ⟨s.prestige.level + 1, s.prestige.totalResets + 1⟩
        upgrades := initialUpgrades
        codeGenerator := initialCodeGen
        codeOptimizer := resetOptimizer true s.codeOptimizer
        performanceAnalyzer := resetAnalyzer false s.performanceAnalyzer })

/-! ## Stage-3 sub-engines -/

/-- `CodeGenerator.generateCode(astNodes)`: returns the generated amount and
the mutated generator state (`generationStats` bookkeeping included). -/
def generateCode (g : CodeGenState) (astNodes : ℚ) : ℚ × CodeGenState :=
  if astNodes ≤ 0 then (0, g)
  else
    let eff := templateEfficiency g.currentTemplate
    let baseGeneration := astNodes * eff
    let optimizationBonus : ℚ := 1 + (g.optimizationLevel : ℚ) * (1/10)
    let experienceBonus : ℚ := 1 + g.generationStats.totalGenerated / 10000 * (1/20)
    let finalGeneration := baseGeneration * optimizationBonus * experienceBonus
    let sessions := g.generationStats.sessionsCount + 1
    let avgEff : ℚ :=
      (g.generationStats.averageEfficiency * ((sessions : ℚ) - 1)
        + (eff + (g.optimizationLevel : ℚ) * (1/10))) / (sessions : ℚ)
    (finalGeneration,
     { g with generationStats :=
        ⟨g.generationStats.totalGenerated + finalGeneration, sessions, avgEff⟩ })

/-- `CodeOptimizer.getOptimizationMultiplier()`. -/
def getOptimizationMultiplier (o : OptimizerState) : ℚ :=
  let step : ℚ → Tech → ℚ := fun m t =>
    let ts := o.optimizations.get t
    if 0 < ts.level then m * (1 + (techData t).efficiency * (ts.level : ℚ)) else m
  step (step (step (step 1 .deadCodeElimination) .loopOptimization)
      .functionInlining) .registerAllocation

/-- Applying one technique's usage bookkeeping (`updateTechStats`). -/
def bumpTechStats (t : Tech) (ts : TechState) : TechState :=
  if 0 < ts.level then
    { ts with totalApplications := ts.totalApplications + 1
              effectiveness := (techData t).efficiency * (ts.level : ℚ) }
  else ts

/-- `CodeOptimizer.optimize(generatedCode)`: returns the optimized amount and
the mutated optimizer state (history push capped at 100, FIFO, plus
`updateTechStats`). -/
def optimize (o : OptimizerState) (generatedCode : ℚ) : ℚ × OptimizerState :=
  if generatedCode ≤ 0 then (0, o)
  else
    let m := getOptimizationMultiplier o
    let optimizedAmount := generatedCode * m
    let hist0 := o.optimizationHistory
      ++ [⟨generatedCode, optimizedAmount, optimizedAmount / generatedCode⟩]
    let hist := if 100 < hist0.length then hist0.drop 1 else hist0
    (optimizedAmount,
     { optimizations :=
        ⟨bumpTechStats .deadCodeElimination o.optimizations.deadCodeElimination,
         bumpTechStats .loopOptimization o.optimizations.loopOptimization,
         bumpTechStats .functionInlining o.optimizations.functionInlining,
         bumpTechStats .registerAllocation o.optimizations.registerAllocation⟩
       optimizationHistory := hist
       totalOptimizationScore :=
        o.totalOptimizationScore + (optimizedAmount - generatedCode) })

/-! ## Per-tick production (`gameState.js` / `game.js`) -/

/-- The per-second production object built by `calculateProduction`. -/
structure Production where
  tokens : ℚ
  astNodes : ℚ
  generatedCode : ℚ
  optimizedCode : ℚ
deriving DecidableEq, Repr

def Production.addTo (p : Production) : Resource → ℚ → Production
  | .tokens, v => { p with tokens := p.tokens + v }
  | .astNodes, v => { p with astNodes := p.astNodes + v }
  | .generatedCode, v => { p with generatedCode := p.generatedCode + v }
  | .optimizedCode, v => { p with optimizedCode := p.optimizedCode + v }
  | .compilerPoints, _ => p   -- no catalog entry produces compilerPoints

/-- One step of the generator loop of `calculateProduction`. -/
def generatorStep (s : GameState) (p : Production) (k : UpgradeId) : Production :=
  let d := upgradeData k
  let level := s.upgrades.get k
  match d.kind, d.resource with
  | .generator, some r =>
      if 0 < level then
        p.addTo r (d.baseOutput * (level : ℚ) * getPrestigeMultiplier s r)
      else p
  | _, _ => p

/-- One step of the converter loop of `calculateProduction`: output is
proportional to the available input stock. -/
def converterStep (s : GameState) (p : Production) (k : UpgradeId) : Production :=
  let d := upgradeData k
  let level := s.upgrades.get k
  match d.kind, d.costResource, d.resource with
  | .converter, some input, some output =>
      if 0 < level ∧ 0 < s.resources.get input then
        p.addTo output (s.resources.get input * (d.baseOutput * (level : ℚ)))
      else p
  | _, _, _ => p

/-- `GameState.calculateStage3Production(production)`: code generation and
optimization, mutating the two sub-engines. -/
def calculateStage3Production (s : GameState) (p : Production) : Production × GameState :=
  let genPart :=
    if 0 < s.resources.astNodes then
      let r := generateCode s.codeGenerator s.resources.astNodes
      ({ p with generatedCode := p.generatedCode + r.1 }, r.2)
    else (p, s.codeGenerator)
  let optPart :=
    if 0 < s.resources.generatedCode then
      let r := optimize s.codeOptimizer s.resources.generatedCode
      ({ genPart.1 with optimizedCode := genPart.1.optimizedCode + r.1 }, r.2)
    else (genPart.1, s.codeOptimizer)
  (optPart.1, { s with codeGenerator := genPart.2, codeOptimizer := optPart.2 })

/-- `GameState.calculateProduction()`: generator loop, then converter loop
(both over UPGRADE_DATA only), then the stage-3 chain when unlocked.  Returns
the production rates and the post-call state (stage 3 mutates sub-engines). -/
def calculateProduction (s : GameState) : Production × GameState :=
  let p0 : Production := ⟨0, 0, 0, 0⟩
  let p1 := upgradeKeys.foldl (generatorStep s) p0
  let p2 := upgradeKeys.foldl (converterStep s) p1
  if s.stage3.unlocked then calculateStage3Production s p2 else (p2, s)

/-- One step of `Game.handleConverterConsumption(deltaTime)`: a converter with
positive level debits `baseOutput · level · Δt` from its input resource only
when the balance covers the full amount; otherwise it leaves it unchanged. -/
def converterConsumeStep (dt : ℚ) (s : GameState) (k : UpgradeId) : GameState :=
  let d := upgradeData k
  let level := s.upgrades.get k
  match d.kind, d.costResource with
  | .converter, some input =>
      if 0 < level then
        let conversionRate := d.baseOutput * (level : ℚ) * dt
        if conversionRate ≤ s.resources.get input then
          { s with resources :=
              s.resources.set input (s.resources.get input - conversionRate) }
        else s
      else s
  | _, _ => s

/-- `Game.handleConverterConsumption(deltaTime)` (iterates UPGRADE_DATA only). -/
def handleConverterConsumption (s : GameState) (dt : ℚ) : GameState :=
  upgradeKeys.foldl (converterConsumeStep dt) s

/-! ## Persistence (`storageManager.js`)

`save()` serializes resources, upgrade levels, prestige state (with the
PRESTIGE_UPGRADES globals), the `stage3` object of `GameState`, and settings.
It does NOT serialize the code generator, the live `CodeOptimizer` state, the
performance analyzer, or `this.stats`.  Decimal values are serialized as
decimal strings, which round-trip exactly; the model keeps them as `ℚ`.
Wall-clock fields (`timestamp`, `startTime`) are outside the model. -/

structure SaveData where
  resources : Resources
  upgrades : Upgrades
  prestigeLevel : ℕ
  prestigeTotalResets : ℕ
  prestigeUpgrades : PrestigeUpgrades
  stage3Unlocked : Bool
  stage3Optimizations : Stage3Opts
  currentDeployment : Platform
  performanceScore : ℚ
  buyAmount : ℕ
  devMode : Bool
deriving DecidableEq, Repr

/-- `StorageManager.save()`. -/
def save (s : GameState) : SaveData :=
  ⟨s.resources, s.upgrades, s.prestige.level, s.prestige.totalResets,
   s.prestigeUpgrades, s.stage3.unlocked, s.stage3.optimizations,
   s.stage3.currentDeployment, s.stage3.performanceScore, s.buyAmount, s.devMode⟩

/-- Merge one loaded `stage3.optimizations` entry: keys present in the save
overwrite, absent keys keep the prior value. -/
def loadOpt (saved : Option TechSave) (prior : Option TechSave) : Option TechSave :=
  match saved with
  | some e => some e
  | none => prior

/-- `StorageManager.load()` applied to save data `d` and prior state `s`
(after a page reload `s` is the freshly constructed `initialState`).  Falsy
fallbacks of the source (`|| 0`, `|| false`, `|| 'development'`, ...) are the
identity on the stored value ranges except `buyAmount || 1`, which is kept. -/
def load (d : SaveData) (s : GameState) : GameState :=
  { s with
      resources := d.resources
      upgrades := d.upgrades
      prestige := ⟨d.prestigeLevel, d.prestigeTotalResets⟩
      prestigeUpgrades := d.prestigeUpgrades
      stage3 :=
        { unlocked := d.stage3Unlocked
          optimizations :=
            ⟨loadOpt d.stage3Optimizations.deadCodeElimination
                s.stage3.optimizations.deadCodeElimination,
             loadOpt d.stage3Optimizations.loopOptimization
                s.stage3.optimizations.loopOptimization,
             loadOpt d.stage3Optimizations.functionInlining
                s.stage3.optimizations.functionInlining,
             loadOpt d.stage3Optimizations.registerAllocation
                s.stage3.optimizations.registerAllocation⟩
          currentDeployment := d.currentDeployment
          performanceScore := d.performanceScore }
      buyAmount := if d.buyAmount = 0 then 1 else d.buyAmount
      devMode := d.devMode }

/-! ## Tokenizer (`tokenizer.js`)

The rule table is a list of anchored JS regexes tried in order at each scan
position.  Each rule is embedded as a deterministic matcher returning the
matched prefix (JS `match[0]`), reproducing the backtracking semantics of the
source regexes (derived rule by rule below).  Unmatched positions emit a
single-character UNKNOWN token.  The `while` loop of `tokenize` is embedded
with explicit fuel: running out of fuel models a stalled loop. -/

inductive TokenType
  | KEYWORD | NUMBER | STRING | IDENTIFIER | OPERATOR
  | DELIMITER | WHITESPACE | COMMENT | UNKNOWN
deriving DecidableEq, Repr

structure Token where
  type : TokenType
  value : List Char
  position : ℕ
  line : ℕ
  column : ℕ
deriving DecidableEq, Repr

/-- Regex word characters `[A-Za-z0-9_]` (the class used by the JS `\b`
boundary; note `$` is not a word character). -/
def isWordChar (c : Char) : Bool :=
  (('a' ≤ c ∧ c ≤ 'z') ∨ ('A' ≤ c ∧ c ≤ 'Z') ∨ ('0' ≤ c ∧ c ≤ '9') ∨ c = '_' : Bool)

def isDigitChar (c : Char) : Bool := ('0' ≤ c ∧ c ≤ '9' : Bool)

/-- Start characters of the IDENTIFIER rule `[a-zA-Z_$]`. -/
def isIdentStart (c : Char) : Bool :=
  (('a' ≤ c ∧ c ≤ 'z') ∨ ('A' ≤ c ∧ c ≤ 'Z') ∨ c = '_' ∨ c = '$' : Bool)

/-- Continuation characters of the IDENTIFIER rule `[a-zA-Z0-9_$]`. -/
def isIdentChar (c : Char) : Bool := isIdentStart c ∨ isDigitChar c

/-- JS `\s` (the subset appearing in source strings: space, tab, newline,
carriage return, vertical tab, form feed). -/
def isSpaceChar (c : Char) : Bool :=
  (c = ' ' ∨ c = '\t' ∨ c = '\n' ∨ c = '\r' ∨ c = Char.ofNat 11 ∨ c = Char.ofNat 12 : Bool)

/-- A `\b` boundary holds after a word character when the rest of the input
does not continue with a word character. -/
def boundaryOk : List Char → Bool
  | [] => true
  | c :: _ => !(isWordChar c)

/-- The KEYWORD alternation, in source order.  No keyword is a prefix of
another, so first-match over prefix-plus-boundary equals the JS backtracking
semantics. -/
def keywordList : List (List Char) :=
  ["function", "var", "let", "const", "if", "else", "for", "while", "return",
   "class", "import", "export", "async", "await", "try", "catch", "finally",
   "throw", "new", "this", "super", "extends", "implements", "interface",
   "type", "enum", "namespace", "module", "declare", "abstract", "private",
   "public", "protected", "static", "readonly", "override"].map String.toList

/-- Rule `KEYWORD`: `^(function|var|...)\b`. -/
def matchKeyword (s : List Char) : Option (List Char) :=
  keywordList.find? (fun kw => kw.isPrefixOf s && boundaryOk (s.drop kw.length))

/-- Rule `NUMBER`: `^[0-9]+(\.[0-9]+)?\b`, including the backtracking
fallback: if the boundary fails after the fractional part the optional group
is dropped (the boundary after the integer part then sits before a dot and
always holds). -/
def matchNumber (s : List Char) : Option (List Char) :=
  if s.takeWhile isDigitChar = [] then none
  else if (s.dropWhile isDigitChar).head? = some '.' then
    -- the optional fractional group, with the backtracking fallback: if it is
    -- empty or the boundary after it fails, the group is dropped and the
    -- boundary before the dot always holds
    if (s.dropWhile isDigitChar).tail.takeWhile isDigitChar ≠ []
        ∧ boundaryOk ((s.dropWhile isDigitChar).tail.dropWhile isDigitChar)
    then some (s.takeWhile isDigitChar
        ++ '.' :: (s.dropWhile isDigitChar).tail.takeWhile isDigitChar)
    else some (s.takeWhile isDigitChar)
  else if boundaryOk (s.dropWhile isDigitChar) then some (s.takeWhile isDigitChar)
  else none

/-- Body of a quoted-string rule `q([^q\\]|\\.)*q` after the opening quote:
scans up to the first unescaped quote; `\\.` cannot escape a newline (JS `.`),
and a missing closing quote fails.  The two branches are disjoint and cannot
consume the quote, so the scan is deterministic. -/
def scanStringBody (q : Char) : List Char → Option (List Char)
  | [] => none
  | [c] => if c = q then some [c] else none
  | c :: c2 :: rest =>
      if c = q then some [c]
      else if c = '\\' then
        if c2 = '\n' then none
        else (scanStringBody q rest).map (fun t => c :: c2 :: t)
      else (scanStringBody q (c2 :: rest)).map (fun t => c :: t)

def quoteChars : List Char := [Char.ofNat 34, Char.ofNat 39, Char.ofNat 96]

/-- Rule `STRING`: double-, single-, then backtick-quoted alternatives. -/
def matchStringTok (s : List Char) : Option (List Char) :=
  match s with
  | c :: rest =>
      match quoteChars.find? (fun q => c = q) with
      | some q => (scanStringBody q rest).map (fun t => c :: t)
      | none => none
  | [] => none

/-- Rule `IDENTIFIER`: `^[a-zA-Z_$][a-zA-Z0-9_$]*`. -/
def matchIdent (s : List Char) : Option (List Char) :=
  match s with
  | c :: rest => if isIdentStart c then some (c :: rest.takeWhile isIdentChar) else none
  | [] => none

/-- The OPERATOR alternation in source order.  Note that `==` and `!=` come
before `===` and `!==`, so the three-character alternatives are unreachable:
JS alternation takes the first alternative that matches. -/
def operatorList : List (List Char) :=
  ["++", "--", "&&", "||", "==", "!=", "<=", ">=", "===", "!==", "=>",
   "+", "-", "*", "/", "%", "&", "|", "!", "<", ">", "=", "?", ":"].map String.toList

/-- Rule `OPERATOR`: first alternative that is a prefix of the input. -/
def matchOperator (s : List Char) : Option (List Char) :=
  operatorList.find? (fun op => op.isPrefixOf s)

/-- The DELIMITER character class `[(){}[\];,.]`. -/
def delimiterChars : List Char :=
  ['(', ')', Char.ofNat 123, Char.ofNat 125, '[', ']', ';', ',', '.']

/-- Rule `DELIMITER`: a single delimiter character. -/
def matchDelimiter (s : List Char) : Option (List Char) :=
  match s with
  | c :: _ => if delimiterChars.contains c then some [c] else none
  | [] => none

/-- Rule `WHITESPACE`: `^[\s\r\n\t]+`. -/
def matchWhitespace (s : List Char) : Option (List Char) :=
  let w := s.takeWhile isSpaceChar
  if w = [] then none else some w

/-- Lazy search for the closing `*/` of a block comment: consumes up to and
including the first occurrence. -/
def findBlockClose : List Char → Option (List Char)
  | [] => none
  | c :: rest =>
      if c = '*' ∧ rest.head? = some '/' then some ['*', '/']
      else (findBlockClose rest).map (fun t => c :: t)

/-- Rule `COMMENT`: `^\/\/.*$|^\/\*[\s\S]*?\*\/`.  Without the `m` flag, `$`
only matches at end of input and `.` matches neither `\n` nor `\r`, so the
line alternative succeeds only when the rest of the input has no newline. -/
def matchComment (s : List Char) : Option (List Char) :=
  match s with
  | '/' :: '/' :: rest =>
      if rest.all (fun c => c ≠ '\n' ∧ c ≠ '\r') then some ('/' :: '/' :: rest)
      else none
  | '/' :: '*' :: rest => (findBlockClose rest).map (fun t => '/' :: '*' :: t)
  | _ => none

/-- The rule table in source order. -/
def ruleList : List (TokenType × (List Char → Option (List Char))) :=
  [(.KEYWORD, matchKeyword), (.NUMBER, matchNumber), (.STRING, matchStringTok),
   (.IDENTIFIER, matchIdent), (.OPERATOR, matchOperator),
   (.DELIMITER, matchDelimiter), (.WHITESPACE, matchWhitespace),
   (.COMMENT, matchComment)]

/-- The inner `for (let rule of this.rules)` loop: the first rule of
`ruleList` that matches, with its matched value. -/
def firstRuleMatch (s : List Char) : Option (TokenType × List Char) :=
  match matchKeyword s with
  | some v => some (.KEYWORD, v)
  | none =>
  match matchNumber s with
  | some v => some (.NUMBER, v)
  | none =>
  match matchStringTok s with
  | some v => some (.STRING, v)
  | none =>
  match matchIdent s with
  | some v => some (.IDENTIFIER, v)
  | none =>
  match matchOperator s with
  | some v => some (.OPERATOR, v)
  | none =>
  match matchDelimiter s with
  | some v => some (.DELIMITER, v)
  | none =>
  match matchWhitespace s with
  | some v => some (.WHITESPACE, v)
  | none =>
  match matchComment s with
  | some v => some (.COMMENT, v)
  | none => none

/-- Line/column update after consuming `v` (`tokenize`'s split-on-newline
logic): with embedded newlines the column restarts at the length of the
segment after the last newline, plus one. -/
def advanceLineCol (v : List Char) (line col : ℕ) : ℕ × ℕ :=
  let nl := v.count '\n'
  if nl = 0 then (line, col + v.length)
  else (line + nl, (v.reverse.takeWhile (fun c => c ≠ '\n')).length + 1)

/-- The `while (position < code.length)` loop of `tokenize`, with explicit
fuel; returns the emitted tokens and the final scan position, or `none` if
the fuel runs out before the input is consumed (a stalled loop). -/
def tokenizeLoop : ℕ → List Char → ℕ → ℕ → ℕ → List Token → Option (List Token × ℕ)
  | _, [], pos, _, _, acc => some (acc.reverse, pos)
  | 0, _ :: _, _, _, _, _ => none
  | fuel + 1, c :: rest, pos, line, col, acc =>
      match firstRuleMatch (c :: rest) with
      | some tv =>
          let acc' :=
            if tv.1 = TokenType.WHITESPACE ∨ tv.1 = TokenType.COMMENT then acc
            else ⟨tv.1, tv.2, pos, line, col⟩ :: acc
          let lc := advanceLineCol tv.2 line col
          tokenizeLoop fuel ((c :: rest).drop tv.2.length) (pos + tv.2.length) lc.1 lc.2 acc'
      | none =>
          tokenizeLoop fuel rest (pos + 1) line (col + 1)
            (⟨.UNKNOWN, [c], pos, line, col⟩ :: acc)

/-- `Tokenizer.tokenize(code)` with the final scan position exposed; fuel
`code.length` suffices because every loop step consumes at least one
character (proved below). -/
def tokenizeRun (code : List Char) : Option (List Token × ℕ) :=
  tokenizeLoop code.length code 0 1 1 []

/-- `Tokenizer.tokenize(code)`. -/
def tokenize (code : List Char) : Option (List Token) :=
  (tokenizeRun code).map Prod.fst

/-! ## Concrete example states -/

/-- The concrete worked example of the spec: 100000 tokens, everything else 0. -/
def exampleHundredK : GameState :=
  { initialState with resources := { initialResources with tokens := 100000 } }

/-- A fresh state with 100 tokens: enough for one level of 'token-speed'. -/
def purchaseOkExample : GameState :=
  { initialState with resources := { initialResources with tokens := 100 } }

/-- A prestige-ready state whose performance analyzer has one recorded score
and one deployment on the development platform. -/
def analyzerHistExample : GameState :=
  { initialState with
      resources := { initialResources with tokens := 100000 }
      performanceAnalyzer :=
        { initialAnalyzer with
            performanceHistory := [⟨5, .development⟩]
            deploymentStats := { initialDeployStats with development := ⟨1, 5, 5, 5⟩ } } }

/-- A state with one level of the 'auto-parser-1' converter and a token
balance (3/10) smaller than its per-second consumption (1/2). -/
def converterLowExample : GameState :=
  { initialState with
      upgrades := { initialUpgrades with autoParser1 := 1 }
      resources := { initialResources with tokens := 3/10 } }

/-- A stage-3-unlocked state holding 1000 AST nodes. -/
def stage3Example : GameState :=
  { initialState with
      stage3 := { initialStage3 with unlocked := true }
      resources := { initialResources with astNodes := 1000 } }

/-- A state whose performance analyzer holds progress that `save()` does not
serialize. -/
def saveLossExample : GameState :=
  { initialState with
      performanceAnalyzer :=
        { initialAnalyzer with
            performanceHistory := [⟨7, .development⟩]
            deploymentStats := { initialDeployStats with development := ⟨1, 7, 7, 7⟩ } } }

/-! ## Helper lemmas -/

theorem resources_get_set_self (r : Resources) (x : Resource) (v : ℚ) :
    (r.set x v).get x = v := by
  cases x <;> rfl

theorem resources_get_set_ne (r : Resources) (x y : Resource) (v : ℚ) (h : y ≠ x) :
    (r.set x v).get y = r.get y := by
  cases x <;> cases y <;> first | rfl | exact absurd rfl h

theorem upgrades_get_set_self (u : Upgrades) (x : UpgradeId) (v : ℕ) :
    (u.set x v).get x = v := by
  cases x <;> rfl

theorem upgrades_get_set_ne (u : Upgrades) (x y : UpgradeId) (v : ℕ) (h : y ≠ x) :
    (u.set x v).get y = u.get y := by
  cases x <;> cases y <;> first | rfl | exact absurd rfl h

/-- Floor of the exact real square root of a nonnegative rational, computed
through `Nat.sqrt` of the rational's floor (soundness of `decimalSqrtFloor`). -/
theorem floor_real_sqrt_rat (q : ℚ) (hq : 0 ≤ q) :
    ⌊Real.sqrt (q : ℝ)⌋ = (Nat.sqrt ⌊q⌋₊ : ℤ) := by
  have hfl : ((⌊q⌋₊ : ℚ) : ℝ) ≤ (q : ℝ) := by exact_mod_cast Nat.floor_le hq
  have hfu : (q : ℝ) < ((⌊q⌋₊ : ℕ) : ℝ) + 1 := by exact_mod_cast Nat.lt_floor_add_one q
  rw [Int.floor_eq_iff]
  constructor
  · have h1 : ((Nat.sqrt ⌊q⌋₊ : ℕ) : ℝ) ≤ Real.sqrt ((⌊q⌋₊ : ℕ) : ℝ) :=
      Real.nat_sqrt_le_real_sqrt
    have h2 : Real.sqrt ((⌊q⌋₊ : ℕ) : ℝ) ≤ Real.sqrt (q : ℝ) :=
      Real.sqrt_le_sqrt (by push_cast at hfl ⊢; linarith)
    push_cast
    linarith
  · have hsq : ((⌊q⌋₊ : ℕ) : ℝ) + 1 ≤ ((Nat.sqrt ⌊q⌋₊ : ℕ) + 1 : ℝ) ^ 2 := by
      have := Nat.lt_succ_sqrt ⌊q⌋₊
      have hcast : ((⌊q⌋₊ : ℕ) : ℝ) + 1 ≤
          (((Nat.sqrt ⌊q⌋₊ + 1) * (Nat.sqrt ⌊q⌋₊ + 1) : ℕ) : ℝ) := by
        exact_mod_cast this
      push_cast at hcast ⊢
      nlinarith
    have hpos : (0 : ℝ) < (Nat.sqrt ⌊q⌋₊ : ℝ) + 1 := by positivity
    have := (Real.sqrt_lt' hpos).mpr (by nlinarith : (q : ℝ) < ((Nat.sqrt ⌊q⌋₊ : ℝ) + 1) ^ 2)
    push_cast
    linarith

/-! ## Claim theorems -/

/-- C1: for every state with nonnegative resources the prestige gain equals
`⌊√((tokens + astNodes·10 + generatedCode·100 + optimizedCode·1000)/1000)⌋`,
it is zero (neither negative nor fractional) whenever the weighted total is
below 1000, and with `tokens = 100000` and all other resources 0 it is 10. -/
theorem c1_prestige_gain_formula (s : GameState)
    (ht : 0 ≤ s.resources.tokens) (ha : 0 ≤ s.resources.astNodes)
    (hg : 0 ≤ s.resources.generatedCode) (ho : 0 ≤ s.resources.optimizedCode) :
    ((calculatePrestigeGain s : ℚ) : ℝ) = (⌊Real.sqrt ((weightedTotal s : ℝ) / 1000)⌋ : ℝ)
    ∧ (weightedTotal s < 1000 → calculatePrestigeGain s = 0)
    ∧ 0 ≤ calculatePrestigeGain s
    ∧ calculatePrestigeGain exampleHundredK = 10 := by
  have hw : 0 ≤ weightedTotal s := by
    unfold weightedTotal
    have h1 : 0 ≤ s.resources.astNodes * 10 := by nlinarith
    have h2 : 0 ≤ s.resources.generatedCode * 100 := by nlinarith
    have h3 : 0 ≤ s.resources.optimizedCode * 1000 := by nlinarith
    linarith
  refine ⟨?_, ?_, ?_, ?_⟩
  · unfold calculatePrestigeGain
    split_ifs with h
    · have h1 : (0 : ℝ) ≤ (weightedTotal s : ℝ) / 1000 := by
        have : (0 : ℝ) ≤ (weightedTotal s : ℝ) := by exact_mod_cast hw
        linarith
      have h2 : (weightedTotal s : ℝ) / 1000 < 1 := by
        have : (weightedTotal s : ℝ) < 1000 := by exact_mod_cast h
        linarith
      have h3 : Real.sqrt ((weightedTotal s : ℝ) / 1000) < 1 :=
        (Real.sqrt_lt' one_pos).mpr (by nlinarith)
      have h4 : ⌊Real.sqrt ((weightedTotal s : ℝ) / 1000)⌋ = 0 :=
        Int.floor_eq_zero_iff.mpr ⟨Real.sqrt_nonneg _, h3⟩
      rw [h4]
      norm_num
    · have hq : 0 ≤ weightedTotal s / 1000 := by positivity
      have hkey := floor_real_sqrt_rat (weightedTotal s / 1000) hq
      have hcast : ((weightedTotal s : ℝ) / 1000) = ((weightedTotal s / 1000 : ℚ) : ℝ) := by
        push_cast
        ring
      rw [hcast, hkey]
      unfold decimalSqrtFloor
      push_cast
      ring
  · intro h
    unfold calculatePrestigeGain
    simp [h]
  · unfold calculatePrestigeGain
    split_ifs
    · exact le_refl 0
    · unfold decimalSqrtFloor
      positivity
  · unfold calculatePrestigeGain
    have hw100 : weightedTotal exampleHundredK = 100000 := by
      norm_num [weightedTotal, exampleHundredK, initialState, initialResources]
    rw [hw100]
    norm_num
    unfold decimalSqrtFloor
    have h1 : ⌊(100 : ℚ)⌋₊ = 100 := by norm_num
    rw [h1]
    have h2 : (100 : ℕ) = 10 ^ 2 := by norm_num
    rw [h2, Nat.sqrt_eq']
    norm_num

/-- Witness for C1 at the worked example `tokens = 100000`. -/
theorem c1_prestige_gain_formula_witness :
    ((calculatePrestigeGain exampleHundredK : ℚ) : ℝ)
      = (⌊Real.sqrt ((weightedTotal exampleHundredK : ℝ) / 1000)⌋ : ℝ)
    ∧ calculatePrestigeGain exampleHundredK = 10 := by
  have h := c1_prestige_gain_formula exampleHundredK
    (by norm_num [exampleHundredK, initialState, initialResources])
    (by norm_num [exampleHundredK, initialState, initialResources])
    (by norm_num [exampleHundredK, initialState, initialResources])
    (by norm_num [exampleHundredK, initialState, initialResources])
  exact ⟨h.1, h.2.2.2⟩

/-- C9: bulk purchase cost (the summation used by `canBuyUpgrade` and
`buyUpgrade`) is additive: buying `a + b` levels from level `L` costs the
same as buying `a` from `L` plus `b` from `L + a`, for every upgrade
definition and all nonnegative integer quantities. -/
theorem c9_bulk_cost_additive (d : UpgradeDef) (L a b : ℕ) :
    bulkCost d L (a + b) = bulkCost d L a + bulkCost d (L + a) b := by
  induction b with
  | zero => simp [bulkCost]
  | succ n ih =>
      have hstep : a + (n + 1) = (a + n) + 1 := by omega
      rw [hstep]
      unfold bulkCost at ih ⊢
      rw [Finset.sum_range_succ, Finset.sum_range_succ, ih]
      have hexp : L + (a + n) = L + a + n := by omega
      rw [hexp]
      ring

/-- C2: a purchase failing `canBuyUpgrade` returns `false` and leaves the
whole state (in particular every resource balance and every upgrade level)
unchanged; a successful purchase returns `true`, debits exactly the bulk cost
from the cost resource, leaves every other resource unchanged, and raises
exactly the bought upgrade's level by exactly the quantity. -/
theorem c2_purchase_atomicity (s : GameState) (k : UpgradeId) (amount : ℕ) :
    (canBuyUpgrade s k amount = false → buyUpgrade s k amount = (false, s))
    ∧ (canBuyUpgrade s k amount = true →
        (buyUpgrade s k amount).1 = true
        ∧ (buyUpgrade s k amount).2.resources.get
              ((upgradeData k).costResource.getD Resource.tokens)
            = s.resources.get ((upgradeData k).costResource.getD Resource.tokens)
              - bulkCost (upgradeData k) (s.upgrades.get k) amount
        ∧ (∀ r : Resource, r ≠ (upgradeData k).costResource.getD Resource.tokens →
            (buyUpgrade s k amount).2.resources.get r = s.resources.get r)
        ∧ (buyUpgrade s k amount).2.upgrades.get k = s.upgrades.get k + amount
        ∧ (∀ j : UpgradeId, j ≠ k →
            (buyUpgrade s k amount).2.upgrades.get j = s.upgrades.get j)) := by
  constructor
  · intro h
    simp [buyUpgrade, h]
  · intro h
    have hne : ¬ canBuyUpgrade s k amount = false := by simp [h]
    refine ⟨by simp [buyUpgrade, hne], ?_, ?_, ?_, ?_⟩
    · simp [buyUpgrade, hne, resources_get_set_self]
    · intro r hr
      simp [buyUpgrade, hne, resources_get_set_ne _ _ _ _ hr]
    · simp [buyUpgrade, hne, upgrades_get_set_self]
    · intro j hj
      simp [buyUpgrade, hne, upgrades_get_set_ne _ _ _ _ hj]

/-- Witness for C2: from a fresh state (0 tokens) buying 'token-speed' fails
and changes nothing; from 100 tokens it succeeds, debits the base cost 25 and
sets the level to 1. -/
theorem c2_purchase_atomicity_witness :
    buyUpgrade initialState UpgradeId.tokenSpeed 1 = (false, initialState)
    ∧ (buyUpgrade purchaseOkExample UpgradeId.tokenSpeed 1).2.resources.get Resource.tokens = 75
    ∧ (buyUpgrade purchaseOkExample UpgradeId.tokenSpeed 1).2.upgrades.get
        UpgradeId.tokenSpeed = 1 := by
  have hfail : canBuyUpgrade initialState UpgradeId.tokenSpeed 1 = false := by
    norm_num [canBuyUpgrade, upgradeData, bulkCost, Finset.sum_range_one,
      initialState, initialResources, initialUpgrades, Resources.get, Upgrades.get]
  have hok : canBuyUpgrade purchaseOkExample UpgradeId.tokenSpeed 1 = true := by
    norm_num [canBuyUpgrade, upgradeData, bulkCost, Finset.sum_range_one,
      purchaseOkExample, initialState, initialResources, initialUpgrades,
      Resources.get, Upgrades.get]
  refine ⟨(c2_purchase_atomicity initialState UpgradeId.tokenSpeed 1).1 hfail, ?_, ?_⟩
  · have h := ((c2_purchase_atomicity purchaseOkExample UpgradeId.tokenSpeed 1).2 hok).2.1
    norm_num [upgradeData] at h
    rw [h]
    norm_num [upgradeData, bulkCost, Finset.sum_range_one, purchaseOkExample,
      initialState, initialResources, initialUpgrades, Resources.get, Upgrades.get]
  · have h := ((c2_purchase_atomicity purchaseOkExample UpgradeId.tokenSpeed 1).2 hok).2.2.2.1
    rw [h]
    norm_num [purchaseOkExample, initialState, initialUpgrades, Upgrades.get]

/-- C3: after a successful prestige reset every upgrade level is 0, the four
production resources are 0, `compilerPoints` grew by exactly the computed
gain, and the prestige level grew by exactly 1. -/
theorem c3_prestige_reset (s : GameState) (h : (doPrestige s).1 = true) :
    (∀ k : UpgradeId, (doPrestige s).2.upgrades.get k = 0)
    ∧ (doPrestige s).2.resources.tokens = 0
    ∧ (doPrestige s).2.resources.astNodes = 0
    ∧ (doPrestige s).2.resources.generatedCode = 0
    ∧ (doPrestige s).2.resources.optimizedCode = 0
    ∧ (doPrestige s).2.resources.compilerPoints
        = s.resources.compilerPoints + calculatePrestigeGain s
    ∧ (doPrestige s).2.prestige.level = s.prestige.level + 1 := by
  by_cases hg : calculatePrestigeGain s ≤ 0
  · exfalso
    simp [doPrestige, hg] at h
  · refine ⟨fun k => ?_, ?_, ?_, ?_, ?_, ?_, ?_⟩ <;>
      first
        | (cases k <;> simp [doPrestige, hg, initialUpgrades, Upgrades.get])
        | simp [doPrestige, hg]

/-- Witness for C3 at the worked example: prestige succeeds from 100000
tokens and credits gain 10 on top of 0 compiler points. -/
theorem c3_prestige_reset_witness :
    (∀ k : UpgradeId, (doPrestige exampleHundredK).2.upgrades.get k = 0)
    ∧ (doPrestige exampleHundredK).2.resources.compilerPoints
        = exampleHundredK.resources.compilerPoints + calculatePrestigeGain exampleHundredK
    ∧ (doPrestige exampleHundredK).2.prestige.level
        = exampleHundredK.prestige.level + 1 := by
  have hgain : calculatePrestigeGain exampleHundredK = 10 := by
    unfold calculatePrestigeGain
    have hw100 : weightedTotal exampleHundredK = 100000 := by
      norm_num [weightedTotal, exampleHundredK, initialState, initialResources]
    rw [hw100]
    norm_num
    unfold decimalSqrtFloor
    have h1 : ⌊(100 : ℚ)⌋₊ = 100 := by norm_num
    rw [h1]
    have h2 : (100 : ℕ) = 10 ^ 2 := by norm_num
    rw [h2, Nat.sqrt_eq']
    norm_num
  have hsucc : (doPrestige exampleHundredK).1 = true := by
    simp only [doPrestige, hgain]
    norm_num
  have h := c3_prestige_reset exampleHundredK hsucc
  exact ⟨h.1, h.2.2.2.2.2.1, h.2.2.2.2.2.2⟩

/-- No catalog generator produces `generatedCode`, so a generator-loop step
never changes that production component. -/
theorem generatorStep_generatedCode (s : GameState) (p : Production) (k : UpgradeId) :
    (generatorStep s p k).generatedCode = p.generatedCode := by
  cases k <;> unfold generatorStep <;> simp only [upgradeData] <;>
    first
      | rfl
      | (split
         · rfl
         · rfl)

/-- The generator loop never changes the `generatedCode` component. -/
theorem foldl_generatorStep_generatedCode (s : GameState) (p : Production) :
    (upgradeKeys.foldl (generatorStep s) p).generatedCode = p.generatedCode := by
  simp [upgradeKeys, generatorStep_generatedCode]

/-- The converter loop over UPGRADE_DATA only feeds `astNodes`, so it never
changes the `generatedCode` component either. -/
theorem foldl_converterStep_generatedCode (s : GameState) (p : Production) :
    (upgradeKeys.foldl (converterStep s) p).generatedCode = p.generatedCode := by
  have h : upgradeKeys.foldl (converterStep s) p = converterStep s p UpgradeId.autoParser1 := rfl
  rw [h]
  unfold converterStep
  simp only [upgradeData]
  split
  · rfl
  · rfl

/-- With stage 3 unlocked and a positive AST-node stock, `calculateProduction`
reports exactly the code generator's output as `generatedCode` production,
stores the mutated generator back, and leaves resources and the stage3 record
unchanged. -/
theorem calculateProduction_stage3_char (s : GameState) (hu : s.stage3.unlocked = true)
    (ha : 0 < s.resources.astNodes) :
    (calculateProduction s).1.generatedCode
        = (generateCode s.codeGenerator s.resources.astNodes).1
    ∧ (calculateProduction s).2.codeGenerator
        = (generateCode s.codeGenerator s.resources.astNodes).2
    ∧ (calculateProduction s).2.resources = s.resources
    ∧ (calculateProduction s).2.stage3 = s.stage3 := by
  have hgc : (upgradeKeys.foldl (converterStep s)
      (upgradeKeys.foldl (generatorStep s) ⟨0, 0, 0, 0⟩)).generatedCode = 0 := by
    rw [foldl_converterStep_generatedCode, foldl_generatorStep_generatedCode]
  by_cases hgen : 0 < s.resources.generatedCode
  · refine ⟨?_, ?_, ?_, ?_⟩ <;>
      simp [calculateProduction, calculateStage3Production, hu, ha, hgen, hgc]
  · refine ⟨?_, ?_, ?_, ?_⟩ <;>
      simp [calculateProduction, calculateStage3Production, hu, ha, hgen, hgc]

/-- Two successive `generateCode` calls with the same positive input: the
second strictly exceeds the first, because the first grew the cumulative
`totalGenerated` and hence the experience bonus. -/
theorem generateCode_strict_growth (g : CodeGenState) (a : ℚ) (ha : 0 < a)
    (ht : 0 ≤ g.generationStats.totalGenerated) :
    (generateCode g a).1 < (generateCode (generateCode g a).2 a).1 := by
  have hna : ¬ a ≤ 0 := not_le.mpr ha
  have heffpos : 0 < templateEfficiency g.currentTemplate := by
    cases g.currentTemplate <;> norm_num [templateEfficiency]
  have hL : (0 : ℚ) ≤ (g.optimizationLevel : ℚ) := by positivity
  simp only [generateCode, if_neg hna]
  set eff := templateEfficiency g.currentTemplate
  set L := (g.optimizationLevel : ℚ)
  set t := g.generationStats.totalGenerated
  have hB : (1 : ℚ) ≤ 1 + L * (1/10) := by linarith
  have hE : (1 : ℚ) ≤ 1 + t / 10000 * (1/20) := by
    have : (0 : ℚ) ≤ t / 10000 * (1/20) := by positivity
    linarith
  have hABpos : 0 < a * eff * (1 + L * (1/10)) := by
    have := mul_pos ha heffpos
    nlinarith
  have hABEpos : 0 < a * eff * (1 + L * (1/10)) * (1 + t / 10000 * (1/20)) := by
    nlinarith
  nlinarith [mul_pos hABpos hABEpos]

/-- C4 counterexample: `doPrestige` calls `resetAnalyzer(false)`, which wipes
the performance history and the per-platform statistics.  From a
prestige-ready state with one recorded score and one development deployment,
the reset succeeds but history and stats are NOT what they were before. -/
theorem c4_analyzer_retention_counterexample :
    (doPrestige analyzerHistExample).1 = true
    ∧ analyzerHistExample.performanceAnalyzer.performanceHistory = [⟨5, .development⟩]
    ∧ (doPrestige analyzerHistExample).2.performanceAnalyzer.performanceHistory
        ≠ analyzerHistExample.performanceAnalyzer.performanceHistory
    ∧ (doPrestige analyzerHistExample).2.performanceAnalyzer.deploymentStats
        ≠ analyzerHistExample.performanceAnalyzer.deploymentStats := by
  have hgain : calculatePrestigeGain analyzerHistExample = 10 := by
    unfold calculatePrestigeGain
    have hw100 : weightedTotal analyzerHistExample = 100000 := by
      norm_num [weightedTotal, analyzerHistExample, initialState, initialResources]
    rw [hw100]
    norm_num
    unfold decimalSqrtFloor
    have h1 : ⌊(100 : ℚ)⌋₊ = 100 := by norm_num
    rw [h1]
    have h2 : (100 : ℕ) = 10 ^ 2 := by norm_num
    rw [h2, Nat.sqrt_eq']
    norm_num
  refine ⟨?_, rfl, ?_, ?_⟩
  · simp only [doPrestige, hgain]
    norm_num
  · simp only [doPrestige, hgain]
    norm_num [resetAnalyzer, analyzerHistExample, initialAnalyzer]
  · simp only [doPrestige, hgain]
    norm_num [resetAnalyzer, analyzerHistExample, initialAnalyzer, initialDeployStats,
      initialPlatStats]

/-- C4 (amended): after every successful prestige reset the performance
analyzer's current platform is back to the default AND its performance
history and per-platform cumulative statistics are cleared to their fresh
values (the reset is invoked with `keepHistory = false`), along with the
detailed metrics. -/
theorem c4_prestige_analyzer_cleared (s : GameState) (h : (doPrestige s).1 = true) :
    (doPrestige s).2.performanceAnalyzer.currentPlatform = Platform.development
    ∧ (doPrestige s).2.performanceAnalyzer.performanceHistory = []
    ∧ (doPrestige s).2.performanceAnalyzer.deploymentStats = initialDeployStats
    ∧ (doPrestige s).2.performanceAnalyzer.detailedMetrics = initialMetrics := by
  by_cases hg : calculatePrestigeGain s ≤ 0
  · exfalso
    simp [doPrestige, hg] at h
  · refine ⟨?_, ?_, ?_, ?_⟩ <;> simp [doPrestige, hg, resetAnalyzer]

/-- Witness for C4 (amended) at the concrete prestige-ready state with
analyzer progress. -/
theorem c4_prestige_analyzer_cleared_witness :
    (doPrestige analyzerHistExample).2.performanceAnalyzer.currentPlatform
        = Platform.development
    ∧ (doPrestige analyzerHistExample).2.performanceAnalyzer.performanceHistory = [] := by
  have hgain : calculatePrestigeGain analyzerHistExample = 10 := by
    unfold calculatePrestigeGain
    have hw100 : weightedTotal analyzerHistExample = 100000 := by
      norm_num [weightedTotal, analyzerHistExample, initialState, initialResources]
    rw [hw100]
    norm_num
    unfold decimalSqrtFloor
    have h1 : ⌊(100 : ℚ)⌋₊ = 100 := by norm_num
    rw [h1]
    have h2 : (100 : ℕ) = 10 ^ 2 := by norm_num
    rw [h2, Nat.sqrt_eq']
    norm_num
  have hsucc : (doPrestige analyzerHistExample).1 = true := by
    simp only [doPrestige, hgain]
    norm_num
  have h := c4_prestige_analyzer_cleared analyzerHistExample hsucc
  exact ⟨h.1, h.2.1⟩

/-- C5 counterexample: with one 'auto-parser-1' level (consumption 1/2 per
second) and a token balance of 3/10 < 1/2, a tick of Δt = 1 leaves the
balance at 3/10 — the engine does not clamp it to 0 as the claim states. -/
theorem c5_converter_clamp_counterexample :
    converterLowExample.resources.tokens = 3/10
    ∧ converterLowExample.resources.tokens
        < (upgradeData UpgradeId.autoParser1).baseOutput
            * (converterLowExample.upgrades.get UpgradeId.autoParser1 : ℚ) * 1
    ∧ (handleConverterConsumption converterLowExample 1).resources.tokens = 3/10
    ∧ (3/10 : ℚ) ≠ 0 := by
  have hfold : handleConverterConsumption converterLowExample 1
      = converterConsumeStep 1 converterLowExample UpgradeId.autoParser1 := rfl
  refine ⟨rfl, ?_, ?_, by norm_num⟩
  · norm_num [upgradeData, converterLowExample, initialUpgrades, Upgrades.get]
  · rw [hfold]
    simp only [converterConsumeStep, upgradeData]
    norm_num [converterLowExample, initialState, initialUpgrades, initialResources,
      Upgrades.get, Resources.get]

/-- C5 (amended): during a tick with Δt > 0, the only converter of the
UPGRADE_DATA table ('auto-parser-1') debits its consumed resource (tokens) by
`baseOutput · level · Δt` exactly when its level is positive and the balance
covers that full amount; otherwise the balance is left unchanged (no partial
debit, no clamp to zero).  All other resources and all upgrade levels are
untouched. -/
theorem c5_converter_consumption (s : GameState) (dt : ℚ) (hdt : 0 < dt) :
    (handleConverterConsumption s dt).resources.get Resource.tokens
      = (if 0 < s.upgrades.get UpgradeId.autoParser1
            ∧ (upgradeData UpgradeId.autoParser1).baseOutput
                * ((s.upgrades.get UpgradeId.autoParser1 : ℕ) : ℚ) * dt
              ≤ s.resources.get Resource.tokens
         then s.resources.get Resource.tokens
              - (upgradeData UpgradeId.autoParser1).baseOutput
                  * ((s.upgrades.get UpgradeId.autoParser1 : ℕ) : ℚ) * dt
         else s.resources.get Resource.tokens)
    ∧ (∀ r : Resource, r ≠ Resource.tokens →
        (handleConverterConsumption s dt).resources.get r = s.resources.get r)
    ∧ (handleConverterConsumption s dt).upgrades = s.upgrades := by
  have hfold : handleConverterConsumption s dt
      = converterConsumeStep dt s UpgradeId.autoParser1 := rfl
  rw [hfold]
  unfold converterConsumeStep
  simp only [upgradeData]
  by_cases hl : 0 < s.upgrades.get UpgradeId.autoParser1
  · by_cases hr : (1/2 : ℚ) * ((s.upgrades.get UpgradeId.autoParser1 : ℕ) : ℚ) * dt
        ≤ s.resources.get Resource.tokens
    · rw [if_pos hl, if_pos hr, if_pos ⟨hl, hr⟩]
      refine ⟨?_, ?_, rfl⟩
      · show (s.resources.set Resource.tokens _).get Resource.tokens = _
        exact resources_get_set_self _ _ _
      · intro r hrr
        show (s.resources.set Resource.tokens _).get r = _
        exact resources_get_set_ne _ _ _ _ hrr
    · rw [if_pos hl, if_neg hr, if_neg (fun hc => hr hc.2)]
      exact ⟨rfl, fun r _ => rfl, rfl⟩
  · rw [if_neg hl, if_neg (fun hc => hl hc.1)]
    exact ⟨rfl, fun r _ => rfl, rfl⟩

/-- Witness for C5 (amended) at the concrete low-balance state with Δt = 1:
the level is positive, the balance does not cover the debit, and the balance
is unchanged. -/
theorem c5_converter_consumption_witness :
    (handleConverterConsumption converterLowExample 1).resources.get Resource.tokens
      = converterLowExample.resources.get Resource.tokens
    ∧ (handleConverterConsumption converterLowExample 1).upgrades
      = converterLowExample.upgrades := by
  have h := c5_converter_consumption converterLowExample 1 (by norm_num)
  refine ⟨?_, h.2.2⟩
  rw [h.1, if_neg ?_]
  rintro ⟨-, hle⟩
  norm_num [upgradeData, converterLowExample, initialState, initialUpgrades,
    initialResources, Upgrades.get, Resources.get] at hle

/-- C10: computing production is not a pure query.  Whenever stage 3 is
unlocked and `astNodes > 0` (with the generator's cumulative total
nonnegative, an invariant of the code), each `calculateProduction` call
mutates the code generator's cumulative total, so of two consecutive calls on
an otherwise unchanged state the second reports strictly more `generatedCode`
production than the first. -/
theorem c10_production_impure (s : GameState)
    (hu : s.stage3.unlocked = true) (ha : 0 < s.resources.astNodes)
    (ht : 0 ≤ s.codeGenerator.generationStats.totalGenerated) :
    (calculateProduction s).1.generatedCode
      < (calculateProduction (calculateProduction s).2).1.generatedCode := by
  obtain ⟨h1, h2, h3, h4⟩ := calculateProduction_stage3_char s hu ha
  have hu1 : (calculateProduction s).2.stage3.unlocked = true := by rw [h4]; exact hu
  have ha1 : 0 < (calculateProduction s).2.resources.astNodes := by rw [h3]; exact ha
  obtain ⟨g1, g2, g3, g4⟩ := calculateProduction_stage3_char _ hu1 ha1
  rw [h1, g1, h2, h3]
  exact generateCode_strict_growth s.codeGenerator s.resources.astNodes ha ht

/-- Witness for C10 at a stage-3-unlocked state with 1000 AST nodes. -/
theorem c10_production_impure_witness :
    (calculateProduction stage3Example).1.generatedCode
      < (calculateProduction (calculateProduction stage3Example).2).1.generatedCode :=
  c10_production_impure stage3Example rfl
    (by norm_num [stage3Example, initialState, initialResources])
    (by norm_num [stage3Example, initialState, initialCodeGen])

/-! ## Tokenizer soundness: every successful rule match is a nonempty prefix -/

theorem matchKeyword_sound {s v : List Char} (h : matchKeyword s = some v) :
    v <+: s ∧ v ≠ [] := by
  unfold matchKeyword at h
  have hmem := List.mem_of_find?_eq_some h
  have hpred := List.find?_some h
  rw [Bool.and_eq_true] at hpred
  refine ⟨List.isPrefixOf_iff_prefix.mp hpred.1, ?_⟩
  have hall : ∀ kw ∈ keywordList, kw ≠ [] := by decide
  exact hall v hmem

theorem matchNumber_sound {s v : List Char} (h : matchNumber s = some v) :
    v <+: s ∧ v ≠ [] := by
  unfold matchNumber at h
  have hsplit := List.takeWhile_append_dropWhile isDigitChar s
  split_ifs at h with hd hdot hf hb
  · cases h
    have hdrop : s.dropWhile isDigitChar = '.' :: (s.dropWhile isDigitChar).tail := by
      cases hcase : s.dropWhile isDigitChar with
      | nil => rw [hcase] at hdot; exact absurd hdot (by simp)
      | cons c r =>
          rw [hcase] at hdot
          simp at hdot
          subst hdot
          rfl
    have htail := List.takeWhile_append_dropWhile isDigitChar
      ((s.dropWhile isDigitChar).tail)
    refine ⟨⟨(s.dropWhile isDigitChar).tail.dropWhile isDigitChar, ?_⟩, by simp [hd]⟩
    conv_rhs => rw [← hsplit, hdrop]
    rw [List.append_assoc, List.cons_append, htail]
  · cases h
    exact ⟨⟨s.dropWhile isDigitChar, hsplit⟩, hd⟩
  · cases h
    exact ⟨⟨s.dropWhile isDigitChar, hsplit⟩, hd⟩

theorem scanStringBody_sound (q : Char) :
    ∀ (s t : List Char), scanStringBody q s = some t → t <+: s ∧ t ≠ [] := by
  have key : ∀ (n : ℕ) (s : List Char), s.length ≤ n →
      ∀ t, scanStringBody q s = some t → t <+: s ∧ t ≠ [] := by
    intro n
    induction n with
    | zero =>
        intro s hs t h
        have hnil : s = [] := List.length_eq_zero.mp (Nat.le_zero.mp hs)
        subst hnil
        exact absurd h (by simp [scanStringBody])
    | succ n ih =>
        intro s hs t h
        match s with
        | [] => exact absurd h (by simp [scanStringBody])
        | [c] =>
            unfold scanStringBody at h
            split_ifs at h with hc
            cases h
            exact ⟨⟨[], rfl⟩, by simp⟩
        | c :: c2 :: rest =>
            unfold scanStringBody at h
            by_cases hc : c = q
            · rw [if_pos hc] at h
              cases h
              exact ⟨⟨c2 :: rest, rfl⟩, by simp⟩
            · rw [if_neg hc] at h
              by_cases hbs : c = '\\'
              · rw [if_pos hbs] at h
                by_cases hnl : c2 = '\n'
                · rw [if_pos hnl] at h
                  exact absurd h (by simp)
                · rw [if_neg hnl] at h
                  rcases ht : scanStringBody q rest with _ | t'
                  · rw [ht] at h
                    exact absurd h (by simp)
                  · rw [ht] at h
                    obtain ⟨⟨u, hu⟩, -⟩ := ih rest (by simp at hs ⊢; omega) t' ht
                    cases h
                    exact ⟨⟨u, by simp [← hu]⟩, by simp⟩
              · rw [if_neg hbs] at h
                rcases ht : scanStringBody q (c2 :: rest) with _ | t'
                · rw [ht] at h
                  exact absurd h (by simp)
                · rw [ht] at h
                  obtain ⟨⟨u, hu⟩, -⟩ := ih (c2 :: rest) (by simp at hs ⊢; omega) t' ht
                  cases h
                  exact ⟨⟨u, by simp [← hu]⟩, by simp⟩
  intro s t h
  exact key s.length s le_rfl t h

theorem matchStringTok_sound {s v : List Char} (h : matchStringTok s = some v) :
    v <+: s ∧ v ≠ [] := by
  cases s with
  | nil => exact absurd h (by simp [matchStringTok])
  | cons c rest =>
      have h' : (match quoteChars.find? (fun q => c = q) with
          | some q => (scanStringBody q rest).map (fun t => c :: t)
          | none => none) = some v := h
      rcases hq : quoteChars.find? (fun q => c = q) with _ | q
      · rw [hq] at h'
        exact absurd h' (by simp)
      · rw [hq] at h'
        have h2 : (scanStringBody q rest).map (fun t => c :: t) = some v := h'
        rcases ht : scanStringBody q rest with _ | t
        · rw [ht] at h2
          exact absurd h2 (by simp)
        · rw [ht] at h2
          obtain ⟨⟨u, hu⟩, -⟩ := scanStringBody_sound q rest t ht
          cases h2
          exact ⟨⟨u, by simp [← hu]⟩, by simp⟩

theorem matchIdent_sound {s v : List Char} (h : matchIdent s = some v) :
    v <+: s ∧ v ≠ [] := by
  cases s with
  | nil => exact absurd h (by simp [matchIdent])
  | cons c rest =>
      have h' : (if isIdentStart c then some (c :: rest.takeWhile isIdentChar)
          else none) = some v := h
      split_ifs at h' with hc
      cases h'
      obtain ⟨u, hu⟩ := List.takeWhile_prefix isIdentChar (l := rest)
      exact ⟨⟨u, by rw [List.cons_append, hu]⟩, by simp⟩

theorem matchOperator_sound {s v : List Char} (h : matchOperator s = some v) :
    v <+: s ∧ v ≠ [] := by
  unfold matchOperator at h
  have hmem := List.mem_of_find?_eq_some h
  have hpred := List.find?_some h
  refine ⟨List.isPrefixOf_iff_prefix.mp hpred, ?_⟩
  have hall : ∀ op ∈ operatorList, op ≠ [] := by decide
  exact hall v hmem

theorem matchDelimiter_sound {s v : List Char} (h : matchDelimiter s = some v) :
    v <+: s ∧ v ≠ [] := by
  cases s with
  | nil => exact absurd h (by simp [matchDelimiter])
  | cons c rest =>
      have h' : (if delimiterChars.contains c then some [c] else none) = some v := h
      split_ifs at h' with hc
      cases h'
      exact ⟨⟨rest, rfl⟩, by simp⟩

theorem matchWhitespace_sound {s v : List Char} (h : matchWhitespace s = some v) :
    v <+: s ∧ v ≠ [] := by
  have h' : (if s.takeWhile isSpaceChar = [] then none
      else some (s.takeWhile isSpaceChar)) = some v := h
  split_ifs at h' with hw
  cases h'
  exact ⟨List.takeWhile_prefix isSpaceChar, hw⟩

theorem findBlockClose_sound :
    ∀ (s t : List Char), findBlockClose s = some t → t <+: s ∧ t ≠ [] := by
  intro s
  induction s with
  | nil => intro t h; exact absurd h (by simp [findBlockClose])
  | cons c rest ih =>
      intro t h
      unfold findBlockClose at h
      split_ifs at h with hc
      · obtain ⟨hc1, hc2⟩ := hc
        cases h
        cases rest with
        | nil => simp at hc2
        | cons c2 r2 =>
            simp at hc2
            subst hc1
            subst hc2
            exact ⟨⟨r2, rfl⟩, by simp⟩
      · rcases ht : findBlockClose rest with _ | t'
        · rw [ht] at h
          exact absurd h (by simp)
        · rw [ht] at h
          obtain ⟨⟨u, hu⟩, -⟩ := ih t' ht
          cases h
          exact ⟨⟨u, by simp [← hu]⟩, by simp⟩

theorem matchComment_sound {s v : List Char} (h : matchComment s = some v) :
    v <+: s ∧ v ≠ [] := by
  unfold matchComment at h
  split at h
  next rest =>
    split_ifs at h with hr
    cases h
    exact ⟨⟨[], by simp⟩, by simp⟩
  next rest =>
    rcases ht : findBlockClose rest with _ | t'
    · rw [ht] at h
      exact absurd h (by simp)
    · rw [ht] at h
      obtain ⟨⟨u, hu⟩, -⟩ := findBlockClose_sound rest t' ht
      cases h
      exact ⟨⟨u, by simp [← hu]⟩, by simp⟩
  next => exact absurd h (by simp)

theorem firstRuleMatch_sound {s : List Char} {tv : TokenType × List Char}
    (h : firstRuleMatch s = some tv) : tv.2 <+: s ∧ tv.2 ≠ [] := by
  unfold firstRuleMatch at h
  rcases h1 : matchKeyword s with _ | v
  case some => rw [h1] at h; cases h; exact matchKeyword_sound h1
  rw [h1] at h
  rcases h2 : matchNumber s with _ | v
  case some => rw [h2] at h; cases h; exact matchNumber_sound h2
  rw [h2] at h
  rcases h3 : matchStringTok s with _ | v
  case some => rw [h3] at h; cases h; exact matchStringTok_sound h3
  rw [h3] at h
  rcases h4 : matchIdent s with _ | v
  case some => rw [h4] at h; cases h; exact matchIdent_sound h4
  rw [h4] at h
  rcases h5 : matchOperator s with _ | v
  case some => rw [h5] at h; cases h; exact matchOperator_sound h5
  rw [h5] at h
  rcases h6 : matchDelimiter s with _ | v
  case some => rw [h6] at h; cases h; exact matchDelimiter_sound h6
  rw [h6] at h
  rcases h7 : matchWhitespace s with _ | v
  case some => rw [h7] at h; cases h; exact matchWhitespace_sound h7
  rw [h7] at h
  rcases h8 : matchComment s with _ | v
  case some => rw [h8] at h; cases h; exact matchComment_sound h8
  rw [h8] at h
  exact absurd h (by simp)

/-- The tokenize loop with fuel at least the input length always terminates
with the scan position advanced to the end of the input. -/
theorem tokenizeLoop_total :
    ∀ (fuel : ℕ) (s : List Char) (pos line col : ℕ) (acc : List Token),
      s.length ≤ fuel →
      ∃ ts, tokenizeLoop fuel s pos line col acc = some (ts, pos + s.length) := by
  intro fuel
  induction fuel with
  | zero =>
      intro s pos line col acc hs
      have hnil : s = [] := List.length_eq_zero.mp (Nat.le_zero.mp hs)
      subst hnil
      exact ⟨acc.reverse, by simp [tokenizeLoop]⟩
  | succ n ih =>
      intro s pos line col acc hs
      match s with
      | [] => exact ⟨acc.reverse, by simp [tokenizeLoop]⟩
      | c :: rest =>
          rcases hm : firstRuleMatch (c :: rest) with _ | tv
          · obtain ⟨ts, hts⟩ := ih rest (pos + 1) line (col + 1)
              (⟨.UNKNOWN, [c], pos, line, col⟩ :: acc) (by simp at hs ⊢; omega)
            refine ⟨ts, ?_⟩
            show tokenizeLoop (n + 1) (c :: rest) pos line col acc = _
            rw [tokenizeLoop, hm, hts]
            simp only [Option.some.injEq, Prod.mk.injEq, List.length_cons]
            exact ⟨trivial, by omega⟩
          · obtain ⟨hpre, hne⟩ := firstRuleMatch_sound hm
            have hlen : 1 ≤ tv.2.length := List.length_pos.mpr hne
            have hlele : tv.2.length ≤ (c :: rest).length := hpre.length_le
            have hle : ((c :: rest).drop tv.2.length).length ≤ n := by
              rw [List.length_drop]
              simp at hs ⊢
              omega
            obtain ⟨ts, hts⟩ := ih ((c :: rest).drop tv.2.length) (pos + tv.2.length)
              (advanceLineCol tv.2 line col).1 (advanceLineCol tv.2 line col).2
              (if tv.1 = TokenType.WHITESPACE ∨ tv.1 = TokenType.COMMENT then acc
               else ⟨tv.1, tv.2, pos, line, col⟩ :: acc) hle
            refine ⟨ts, ?_⟩
            show tokenizeLoop (n + 1) (c :: rest) pos line col acc = _
            rw [tokenizeLoop, hm]
            dsimp only
            rw [hts]
            have hdl := List.length_drop tv.2.length (c :: rest)
            simp only [Option.some.injEq, Prod.mk.injEq]
            refine ⟨trivial, ?_⟩
            simp only [List.length_cons] at hdl hlele hs ⊢
            omega

/-- C6: the tokenizer is total and consumes every character of every input:
the loop (with fuel bounded by the input length, i.e. advancing at least one
character per step) finishes with the scan position equal to the input
length; the empty string yields the empty token list; and a character
matching no rule is emitted as a single-character UNKNOWN token. -/
theorem c6_tokenizer_total (code : List Char) :
    (∃ ts, tokenizeRun code = some (ts, code.length))
    ∧ (tokenize code).isSome = true
    ∧ tokenize ([] : List Char) = some []
    ∧ tokenize ['#'] = some [⟨.UNKNOWN, ['#'], 0, 1, 1⟩]
    ∧ (∀ (s : List Char) (tv : TokenType × List Char),
        firstRuleMatch s = some tv → 1 ≤ tv.2.length) := by
  obtain ⟨ts, hts⟩ := tokenizeLoop_total code.length code 0 1 1 [] le_rfl
  have hrun : tokenizeRun code = some (ts, code.length) := by
    show tokenizeLoop code.length code 0 1 1 [] = _
    rw [hts]
    norm_num
  refine ⟨⟨ts, hrun⟩, ?_, rfl, rfl, ?_⟩
  · unfold tokenize
    rw [hrun]
    rfl
  · intro s tv hm
    exact List.length_pos.mpr (firstRuleMatch_sound hm).2

/-- Witness for C6: the spec's worked input is consumed to its full length,
and the rule match at its head is the three-character keyword 'let'. -/
theorem c6_tokenizer_total_witness :
    (∃ ts, tokenizeRun ("let x = 1;".toList)
        = some (ts, ("let x = 1;".toList).length))
    ∧ 1 ≤ ((TokenType.KEYWORD, "let".toList) : TokenType × List Char).2.length :=
  ⟨(c6_tokenizer_total ("let x = 1;".toList)).1,
   (c6_tokenizer_total []).2.2.2.2 ("let x = 1;".toList)
     (TokenType.KEYWORD, "let".toList) (by rfl)⟩

/-- C7 at the failing input: the OPERATOR alternation lists `==` before
`===`, so the input `===` is split into two operator tokens `==` and `=`
instead of one `===` token (while `=>` is still lexed as one token). -/
theorem c7_operator_split_eval :
    tokenize ("===".toList)
      = some [⟨.OPERATOR, "==".toList, 0, 1, 1⟩, ⟨.OPERATOR, "=".toList, 2, 1, 3⟩]
    ∧ tokenize ("=>".toList) = some [⟨.OPERATOR, "=>".toList, 0, 1, 1⟩] :=
  ⟨rfl, rfl⟩

/-- Merging a loaded `stage3.optimizations` entry into an absent prior entry
yields the loaded entry. -/
theorem loadOpt_none (x : Option TechSave) : loadOpt x none = x := by
  cases x <;> rfl

/-- C8 counterexample: `save()` does not serialize the performance analyzer,
so loading a save into a freshly constructed state loses its history and
per-platform stats: the round trip is not the identity. -/
theorem c8_round_trip_counterexample :
    (load (save saveLossExample) initialState).performanceAnalyzer.performanceHistory = []
    ∧ saveLossExample.performanceAnalyzer.performanceHistory = [⟨7, Platform.development⟩]
    ∧ load (save saveLossExample) initialState ≠ saveLossExample := by
  refine ⟨rfl, rfl, ?_⟩
  intro h
  have h3 : ([] : List HistEntry) = [(⟨7, Platform.development⟩ : HistEntry)] := by
    calc ([] : List HistEntry)
        = (load (save saveLossExample) initialState).performanceAnalyzer.performanceHistory :=
          rfl
      _ = saveLossExample.performanceAnalyzer.performanceHistory := by rw [h]
      _ = [⟨7, Platform.development⟩] := rfl
  exact absurd h3 (by simp)

/-- C8 (amended): loading the result of saving a state into a freshly
constructed state reproduces the serialized fields exactly — the resource
ledger, upgrade levels, prestige state with its upgrades, the stage3 record
(flag, optimization-save map, deployment, score) and settings — while the
code generator, the live optimizer, the performance analyzer and the play
statistics are not serialized and revert to their fresh defaults. -/
theorem c8_round_trip_partial (s : GameState) (hb : s.buyAmount ≠ 0) :
    load (save s) initialState
      = { s with
            codeGenerator := initialCodeGen
            codeOptimizer := initialOptimizer
            performanceAnalyzer := initialAnalyzer
            stats := initialStats } := by
  unfold load save
  simp [loadOpt_none, hb, initialState, initialStage3]

/-- Witness for C8 (amended) at the state whose analyzer holds progress. -/
theorem c8_round_trip_partial_witness :
    load (save saveLossExample) initialState
      = { saveLossExample with
            codeGenerator := initialCodeGen
            codeOptimizer := initialOptimizer
            performanceAnalyzer := initialAnalyzer
            stats := initialStats } :=
  c8_round_trip_partial saveLossExample (by norm_num [saveLossExample, initialState])

end CompilerGame
